import Mathlib

/-!
Verification of the enrichment pipeline of the esg_maritime_scoring
repository: the weather grid cache (0.25 degree cells, 10-minute TTL,
coalesced fetches), the resistance / emission / ESG computation chain,
the rating labels, and the live-tracking vessel registry.

Python floats are modelled as exact rationals; the real-valued square
root used by the speed adjustment is modelled over the reals.
-/

namespace ESGMaritime

/-- Maritime resistance factor, embedded from `_compute_resistance_factor`
of `app/services/weather_service.py` as reproduced verbatim in the
weather-integration document: base resistance 1.0; wind above 5 m/s adds
`(wind_speed - 5.0) * 0.01`; waves above 1 m add
`(wave_height - 1.0) * 0.05`. -/
def compute_resistance_factor (wind_speed wave_height : ℚ) : ℚ :=
  let resistance : ℚ := 1.0
  let resistance : ℚ :=
    if wind_speed > 5.0 then resistance + (wind_speed - 5.0) * 0.01 else resistance
  let resistance : ℚ :=
    if wave_height > 1.0 then resistance + (wave_height - 1.0) * 0.05 else resistance
  resistance

namespace EmissionAdjuster

/-- Modelled from the spec: `EmissionAdjuster.Adjust` (spec section 4.3).
The repository's `app/services/live_emission_service.py` is not under
`src/`; its documented formulas are `adjusted_co2 = base_co2 *
resistance_factor` and `delta = adjusted_co2 - base_co2`, and the spec
adds the domain guard returning an error for negative `baseCO2Kg` and for
`resistanceFactor <= 0`.  Returns `(adjustedCO2Kg, deltaCO2Kg)`; the
speed factor involves a real square root and is modelled separately. -/
def Adjust (baseCO2Kg resistanceFactor : ℚ) : Option (ℚ × ℚ) :=
  if baseCO2Kg < 0 then none
  else if resistanceFactor ≤ 0 then none
  else some (baseCO2Kg * resistanceFactor, baseCO2Kg * resistanceFactor - baseCO2Kg)

end EmissionAdjuster

/-- Speed adjustment as documented for `live_emission_service.py`:
`adjusted_speed = base_speed / sqrt(resistance_factor)`. -/
noncomputable def adjusted_speed (base_speed resistance_factor : ℝ) : ℝ :=
  base_speed / Real.sqrt resistance_factor

/-- Speed argument passed to the weather-adjusted CO2 ML prediction in
`live_tracking_service.py` as documented:
`avg_speed * (resistance_factor ** 0.5)` (the line is commented
"Reduced speed"); `** 0.5` is the real square root on nonnegative
inputs. -/
noncomputable def ml_adjusted_speed_arg (avg_speed resistance_factor : ℝ) : ℝ :=
  avg_speed * Real.sqrt resistance_factor

/-- Named risk flags emitted by the ESG scorer. -/
inductive RiskFlag where
  | highCO2Intensity
  | excessiveAcceleration
  | excessiveSpeed
  | longOperation
deriving DecidableEq, Repr

/-- Modelled from the spec: the CO2-intensity penalty condition of
`compute_esg_score` in `ml/esg/esg_scoring.py` (absent from `src/`):
intensity is `baseline_co2 / total_distance_km`, treated as infinite
(hence above any threshold) when the distance is 0 and the CO2 is
positive, and as 0 when both are 0; the penalty fires when the intensity
exceeds 50 kg/km. -/
def highCO2Condition (baseline_co2 total_distance_km : ℚ) : Prop :=
  if total_distance_km = 0 then baseline_co2 > 0
  else baseline_co2 / total_distance_km > 50

instance (baseline_co2 total_distance_km : ℚ) :
    Decidable (highCO2Condition baseline_co2 total_distance_km) := by
  unfold highCO2Condition
  infer_instance

/-- Modelled from the spec: `compute_esg_score` of `ml/esg/esg_scoring.py`
(absent from `src/`; behaviour documented in the ESG scoring module
README and spec section 4.4): start from 100; subtract 25 when the CO2
intensity exceeds 50 kg/km, 15 when acceleration events exceed 20, 10
when average speed exceeds 18 knots, 10 when time at sea exceeds 720
hours; clamp the result to [0, 100]; emit the named risk flag for each
penalty taken. -/
def compute_esg_score (baseline_co2 total_distance_km avg_speed : ℚ)
    (acceleration_events : ℕ) (time_at_sea_hours : ℚ) : ℤ × List RiskFlag :=
  let p1 : ℤ := if highCO2Condition baseline_co2 total_distance_km then 25 else 0
  let p2 : ℤ := if acceleration_events > 20 then 15 else 0
  let p3 : ℤ := if avg_speed > 18 then 10 else 0
  let p4 : ℤ := if time_at_sea_hours > 720 then 10 else 0
  let flags : List RiskFlag :=
    (if highCO2Condition baseline_co2 total_distance_km then [RiskFlag.highCO2Intensity] else []) ++
    (if acceleration_events > 20 then [RiskFlag.excessiveAcceleration] else []) ++
    (if avg_speed > 18 then [RiskFlag.excessiveSpeed] else []) ++
    (if time_at_sea_hours > 720 then [RiskFlag.longOperation] else [])
  (max 0 (min 100 (100 - (p1 + p2 + p3 + p4))), flags)

/-- Category object returned by `ESGScoreCard.getScoreCategory`. -/
structure ScoreCategory where
  color : String
  bgColor : String
  borderColor : String
  textColor : String
  label : String
deriving DecidableEq, Repr

/-- Embedded from `ESGScoreCard.getScoreCategory` of
`frontend/src/components/ESGScoreCard.jsx`: green "Excellent" for
`score >= 80`, orange "Moderate" for `score >= 60`, red
"Needs Improvement" otherwise. -/
def getScoreCategory (score : ℤ) : ScoreCategory :=
  if score ≥ 80 then
    { color := "esg-green", bgColor := "bg-green-100",
      borderColor := "border-green-500", textColor := "text-green-800",
      label := "Excellent" }
  else if score ≥ 60 then
    { color := "esg-orange", bgColor := "bg-orange-100",
      borderColor := "border-orange-500", textColor := "text-orange-800",
      label := "Moderate" }
  else
    { color := "esg-red", bgColor := "bg-red-100",
      borderColor := "border-red-500", textColor := "text-red-800",
      label := "Needs Improvement" }

/-- Modelled from the spec: the rating assigned by
`get_score_interpretation` of `ml/esg/esg_scoring.py` (absent from
`src/`; the documented score ranges are 90-100 Excellent, 70-89 Good,
50-69 Moderate, 30-49 Poor, 0-29 Critical). -/
def interpretation_rating (score : ℤ) : String :=
  if score ≥ 90 then "Excellent"
  else if score ≥ 70 then "Good"
  else if score ≥ 50 then "Moderate"
  else if score ≥ 30 then "Poor"
  else "Critical"

/-- C3: for every wind speed and wave height, the resistance factor is
`1.0 + max(0, wind - 5.0) * 0.01 + max(0, wave - 1.0) * 0.05`, and wind
12 m/s with waves 2.5 m yields exactly 1.145. -/
theorem C3_resistance_formula :
    (∀ w h : ℚ, compute_resistance_factor w h =
      1.0 + max 0 (w - 5.0) * 0.01 + max 0 (h - 1.0) * 0.05) ∧
    compute_resistance_factor 12 2.5 = 1.145 := by
  constructor
  · intro w h
    simp only [compute_resistance_factor]
    rcases le_or_lt w 5 with hw | hw <;> rcases le_or_lt h 1 with hh | hh
    · rw [if_neg (by linarith), if_neg (by linarith),
        max_eq_left (by linarith), max_eq_left (by linarith)]
      ring
    · rw [if_pos (by linarith), if_neg (by linarith),
        max_eq_left (by linarith), max_eq_right (by linarith)]
      ring
    · rw [if_neg (by linarith), if_pos (by linarith),
        max_eq_right (by linarith), max_eq_left (by linarith)]
      ring
    · rw [if_pos (by linarith), if_pos (by linarith),
        max_eq_right (by linarith), max_eq_right (by linarith)]
  · norm_num [compute_resistance_factor]

/-- C9: the resistance factor is at least 1.0 for every input, negative
inputs included, and it equals 1.0 exactly whenever the wind speed is at
most 5 m/s and the wave height at most 1 m. -/
theorem C9_resistance_ge_one :
    ∀ w h : ℚ, 1 ≤ compute_resistance_factor w h ∧
      (w ≤ 5 → h ≤ 1 → compute_resistance_factor w h = 1) := by
  intro w h
  constructor
  · simp only [compute_resistance_factor]
    rcases le_or_lt w 5 with hw | hw <;> rcases le_or_lt h 1 with hh | hh
    · rw [if_neg (by linarith), if_neg (by linarith)]
      norm_num
    · rw [if_pos (by linarith), if_neg (by linarith)]
      linarith
    · rw [if_neg (by linarith), if_pos (by linarith)]
      linarith
    · rw [if_pos (by linarith), if_pos (by linarith)]
      linarith
  · intro hw hh
    simp only [compute_resistance_factor]
    rw [if_neg (by linarith), if_neg (by linarith)]
    norm_num

/-- C9 witness: at wind -3 m/s and waves -2 m the factor is at least 1
and equals 1 exactly. -/
theorem C9_resistance_ge_one_witness :
    1 ≤ compute_resistance_factor (-3) (-2) ∧
      compute_resistance_factor (-3) (-2) = 1 :=
  ⟨(C9_resistance_ge_one (-3) (-2)).1,
   (C9_resistance_ge_one (-3) (-2)).2 (by norm_num) (by norm_num)⟩

/-- C4: whenever `Adjust` returns values, the adjusted CO2 is exactly
`baseCO2Kg * resistanceFactor`, the delta is exactly the adjusted CO2
minus the base, and a resistance factor of at least 1.0 makes the
adjusted CO2 at least the base CO2. -/
theorem C4_adjust_formula :
    ∀ base f adj delta : ℚ,
      EmissionAdjuster.Adjust base f = some (adj, delta) →
      adj = base * f ∧ delta = adj - base ∧ (1 ≤ f → base ≤ adj) := by
  intro base f adj delta hEq
  unfold EmissionAdjuster.Adjust at hEq
  split_ifs at hEq with h1 h2
  simp only [Option.some.injEq, Prod.mk.injEq] at hEq
  obtain ⟨ha, hd⟩ := hEq
  refine ⟨ha.symm, by rw [← ha, ← hd], ?_⟩
  intro hf
  rw [← ha]
  nlinarith [not_lt.mp h1]

/-- C4 witness: at base 450 kg and factor 1.145 the adjusted CO2 is
exactly 515.25 kg, the delta exactly 65.25 kg, and the adjusted CO2
dominates the base. -/
theorem C4_adjust_formula_witness :
    EmissionAdjuster.Adjust 450 1.145 = some (515.25, 65.25) ∧
      (450 : ℚ) ≤ 515.25 := by
  have h : EmissionAdjuster.Adjust 450 1.145 = some (515.25, 65.25) := by
    norm_num [EmissionAdjuster.Adjust]
  exact ⟨h, (C4_adjust_formula 450 1.145 515.25 65.25 h).2.2 (by norm_num)⟩

/-- C5: the claim says the vessel's speed is always reduced by dividing
by the square root of the resistance factor and never multiplied.  The
documented `adjusted_speed` formula of the emission service does divide,
but the speed argument the live-tracking service feeds to the
weather-adjusted CO2 ML prediction multiplies `avg_speed` by
`resistance_factor ** 0.5` (despite the adjacent "Reduced speed"
comment): at average speed 15 and resistance factor 4 it produces 30, a
speed increase, where the divided form gives 7.5. -/
theorem C5_speed_multiplied_in_ml_call :
    adjusted_speed 15 4 = 7.5 ∧
    ml_adjusted_speed_arg 15 4 = 30 ∧
    (15 : ℝ) < ml_adjusted_speed_arg 15 4 ∧
    ml_adjusted_speed_arg 15 4 ≠ adjusted_speed 15 4 := by
  have h4 : Real.sqrt 4 = 2 := by
    rw [show (4 : ℝ) = 2 ^ 2 by norm_num, Real.sqrt_sq (by norm_num : (0 : ℝ) ≤ 2)]
  refine ⟨?_, ?_, ?_, ?_⟩ <;>
    simp only [adjusted_speed, ml_adjusted_speed_arg, h4] <;> norm_num

/-- C6: the ESG score equals 100 minus exactly the applicable fixed
penalties (25 for CO2 intensity above 50 kg/km, with the zero-distance
convention; 15 for more than 20 acceleration events; 10 for average speed
above 18 knots; 10 for more than 720 hours at sea), applied additively
and independently, and the matching named risk flag is emitted for each
penalty taken. -/
theorem C6_esg_score_additive_penalties :
    ∀ (co2 dist speed : ℚ) (accel : ℕ) (hours : ℚ),
      (compute_esg_score co2 dist speed accel hours).1 =
        100 - (if (if dist = 0 then (0 : ℚ) < co2 else 50 < co2 / dist) then (25 : ℤ) else 0)
            - (if 20 < accel then (15 : ℤ) else 0)
            - (if 18 < speed then (10 : ℤ) else 0)
            - (if 720 < hours then (10 : ℤ) else 0) ∧
      (RiskFlag.highCO2Intensity ∈ (compute_esg_score co2 dist speed accel hours).2 ↔
        (if dist = 0 then (0 : ℚ) < co2 else 50 < co2 / dist)) ∧
      (RiskFlag.excessiveAcceleration ∈ (compute_esg_score co2 dist speed accel hours).2 ↔
        20 < accel) ∧
      (RiskFlag.excessiveSpeed ∈ (compute_esg_score co2 dist speed accel hours).2 ↔
        18 < speed) ∧
      (RiskFlag.longOperation ∈ (compute_esg_score co2 dist speed accel hours).2 ↔
        720 < hours) := by
  intro co2 dist speed accel hours
  refine ⟨?_, ?_, ?_, ?_, ?_⟩ <;>
    · simp only [compute_esg_score, highCO2Condition]
      split_ifs <;> simp_all

/-- C7: the ESG score is within [0, 100] for every input combination; at
zero distance with positive adjusted CO2 the intensity penalty applies
(its risk flag is emitted), and at zero distance with zero CO2 no
intensity penalty applies; the intensity division is guarded by the
zero-distance special case rather than evaluated unguarded. -/
theorem C7_score_always_in_range :
    (∀ (co2 dist speed : ℚ) (accel : ℕ) (hours : ℚ),
        0 ≤ (compute_esg_score co2 dist speed accel hours).1 ∧
        (compute_esg_score co2 dist speed accel hours).1 ≤ 100) ∧
    (∀ (co2 speed : ℚ) (accel : ℕ) (hours : ℚ), 0 < co2 →
        RiskFlag.highCO2Intensity ∈ (compute_esg_score co2 0 speed accel hours).2) ∧
    (∀ (speed : ℚ) (accel : ℕ) (hours : ℚ),
        RiskFlag.highCO2Intensity ∉ (compute_esg_score 0 0 speed accel hours).2) := by
  refine ⟨?_, ?_, ?_⟩
  · intro co2 dist speed accel hours
    simp only [compute_esg_score]
    split_ifs <;> constructor <;> decide
  · intro co2 speed accel hours hco2
    simp only [compute_esg_score, highCO2Condition]
    split_ifs <;> simp_all
  · intro speed accel hours
    simp only [compute_esg_score, highCO2Condition]
    split_ifs <;> simp_all

/-- C7 witness: the degenerate zero-distance scenario from the spec
(distance 0 km, adjusted CO2 500 kg) keeps the score in [0, 100] and
takes the intensity penalty, while zero distance with zero CO2 takes
none. -/
theorem C7_score_always_in_range_witness :
    (0 ≤ (compute_esg_score 500 0 0 0 0).1 ∧
      (compute_esg_score 500 0 0 0 0).1 ≤ 100) ∧
    RiskFlag.highCO2Intensity ∈ (compute_esg_score 500 0 0 0 0).2 ∧
    RiskFlag.highCO2Intensity ∉ (compute_esg_score 0 0 0 0 0).2 :=
  ⟨C7_score_always_in_range.1 500 0 0 0 0,
   C7_score_always_in_range.2.1 500 0 0 (0 : ℚ) (by norm_num),
   C7_score_always_in_range.2.2 0 0 0⟩

/-- C8 counterexample: the claim requires every place deriving a rating
label from a score to assign "Good" exactly to scores in [70, 90), but
`ESGScoreCard.getScoreCategory` labels the score 85 "Excellent". -/
theorem C8_counterexample_scorecard_85 :
    70 ≤ (85 : ℤ) ∧ (85 : ℤ) < 90 ∧
    (getScoreCategory 85).label = "Excellent" ∧
    (getScoreCategory 85).label ≠ "Good" := by
  refine ⟨by norm_num, by norm_num, ?_, ?_⟩ <;> decide

/-- C8 amended: for every integer score in [0, 100], the scoring module's
interpretation assigns Excellent iff score is at least 90, Good iff it is
in [70, 90), Moderate iff in [50, 70), Poor iff in [30, 50), Critical
otherwise; the frontend `ESGScoreCard`, however, derives its label with
different thresholds: Excellent iff at least 80, Moderate iff in
[60, 80), and "Needs Improvement" otherwise. -/
theorem C8_rating_thresholds :
    ∀ s : ℤ, 0 ≤ s → s ≤ 100 →
      ((interpretation_rating s = "Excellent" ↔ 90 ≤ s) ∧
       (interpretation_rating s = "Good" ↔ 70 ≤ s ∧ s < 90) ∧
       (interpretation_rating s = "Moderate" ↔ 50 ≤ s ∧ s < 70) ∧
       (interpretation_rating s = "Poor" ↔ 30 ≤ s ∧ s < 50) ∧
       (interpretation_rating s = "Critical" ↔ s < 30)) ∧
      (((getScoreCategory s).label = "Excellent" ↔ 80 ≤ s) ∧
       ((getScoreCategory s).label = "Moderate" ↔ 60 ≤ s ∧ s < 80) ∧
       ((getScoreCategory s).label = "Needs Improvement" ↔ s < 60)) := by
  intro s h0 h1
  unfold interpretation_rating getScoreCategory
  split_ifs <;> refine ⟨⟨?_, ?_, ?_, ?_, ?_⟩, ?_, ?_, ?_⟩ <;> simp_all <;> omega

/-- C8 witness: at score 85 the interpretation rating is "Good" (85 is in
[70, 90)) while the score card labels it "Excellent" (85 is at least
80). -/
theorem C8_rating_thresholds_witness :
    (interpretation_rating 85 = "Good" ↔ 70 ≤ (85 : ℤ) ∧ (85 : ℤ) < 90) ∧
    ((getScoreCategory 85).label = "Excellent" ↔ 80 ≤ (85 : ℤ)) :=
  ⟨(C8_rating_thresholds 85 (by norm_num) (by norm_num)).1.2.1,
   (C8_rating_thresholds 85 (by norm_num) (by norm_num)).2.1⟩

/-- A vessel update message received over the live-tracking WebSocket. -/
structure VesselUpdate where
  mmsi : String
  lat : ℚ
  lon : ℚ
  speed : ℚ
  esg_score : ℤ
deriving DecidableEq, Repr

/-- The vessel registry kept in `vesselsRef.current` of
`frontend/src/pages/LiveTracking.jsx`: a JS object keyed by MMSI,
modelled as an association list in key insertion order. -/
abbrev VesselRegistry := List (String × VesselUpdate)

/-- Embedded from the `ws.onmessage` handler of
`frontend/src/pages/LiveTracking.jsx`: each message performs
`vesselsRef.current = { ...vesselsRef.current, [data.mmsi]: data }`,
which for a JS object replaces the binding of the key `data.mmsi` in
place when present and appends it otherwise. -/
def storeUpdate (reg : VesselRegistry) (data : VesselUpdate) : VesselRegistry :=
  match reg with
  | [] => [(data.mmsi, data)]
  | p :: rest =>
      if p.1 = data.mmsi then (data.mmsi, data) :: rest
      else p :: storeUpdate rest data

/-- Property access `vesselsRef.current[m]` on the modelled registry. -/
def getVessel (reg : VesselRegistry) (m : String) : Option VesselUpdate :=
  match reg with
  | [] => none
  | p :: rest => if p.1 = m then some p.2 else getVessel rest m

/-- Processing a whole sequence of incoming updates starting from the
empty registry, as the WebSocket handler does. -/
def processUpdates (msgs : List VesselUpdate) : VesselRegistry :=
  msgs.foldl storeUpdate []

theorem getVessel_storeUpdate_self (reg : VesselRegistry) (v : VesselUpdate) :
    getVessel (storeUpdate reg v) v.mmsi = some v := by
  induction reg with
  | nil => simp [storeUpdate, getVessel]
  | cons p rest ih =>
    by_cases hp : p.1 = v.mmsi
    · simp [storeUpdate, hp, getVessel]
    · simp [storeUpdate, hp, getVessel, ih]

theorem getVessel_storeUpdate_frame (reg : VesselRegistry) (v : VesselUpdate)
    (k : String) (hk : k ≠ v.mmsi) :
    getVessel (storeUpdate reg v) k = getVessel reg k := by
  induction reg with
  | nil => simp [storeUpdate, getVessel, Ne.symm hk]
  | cons p rest ih =>
    by_cases hp : p.1 = v.mmsi
    · simp [storeUpdate, hp, getVessel, Ne.symm hk]
    · by_cases hpk : p.1 = k <;> simp [storeUpdate, hp, getVessel, hpk, hk, ih]

theorem mem_keys_storeUpdate (reg : VesselRegistry) (v : VesselUpdate)
    (a : String) (ha : a ∈ (storeUpdate reg v).map Prod.fst) :
    a = v.mmsi ∨ a ∈ reg.map Prod.fst := by
  induction reg with
  | nil => simpa [storeUpdate] using ha
  | cons p rest ih =>
    by_cases hp : p.1 = v.mmsi
    · simp only [storeUpdate, if_pos hp, List.map_cons, List.mem_cons] at ha ⊢
      tauto
    · simp only [storeUpdate, if_neg hp, List.map_cons, List.mem_cons] at ha ⊢
      tauto

theorem nodup_keys_storeUpdate (reg : VesselRegistry) (v : VesselUpdate)
    (hreg : (reg.map Prod.fst).Nodup) :
    ((storeUpdate reg v).map Prod.fst).Nodup := by
  induction reg with
  | nil => simp [storeUpdate]
  | cons p rest ih =>
    simp only [List.map_cons, List.nodup_cons] at hreg
    by_cases hp : p.1 = v.mmsi
    · simp only [storeUpdate, if_pos hp, List.map_cons, List.nodup_cons]
      rw [← hp]
      exact hreg
    · simp only [storeUpdate, if_neg hp, List.map_cons, List.nodup_cons]
      refine ⟨fun hmem => ?_, ih hreg.2⟩
      rcases mem_keys_storeUpdate rest v p.1 hmem with h | h
      · exact hp h
      · exact hreg.1 h

theorem nodup_keys_processUpdates (msgs : List VesselUpdate) :
    ((processUpdates msgs).map Prod.fst).Nodup := by
  have hgen : ∀ (ms : List VesselUpdate) (reg : VesselRegistry),
      (reg.map Prod.fst).Nodup → ((ms.foldl storeUpdate reg).map Prod.fst).Nodup := by
    intro ms
    induction ms with
    | nil => intro reg h; simpa using h
    | cons m rest ih =>
      intro reg h
      exact ih (storeUpdate reg m) (nodup_keys_storeUpdate reg m h)
  exact hgen msgs [] (by simp)

/-- C10: the live-tracking vessel registry holds at most one record per
MMSI for every sequence of incoming updates, and processing an update
for MMSI m replaces exactly the entry keyed m (last writer wins) while
leaving the entry of every other MMSI unchanged. -/
theorem C10_registry_last_writer_wins :
    (∀ msgs : List VesselUpdate, ((processUpdates msgs).map Prod.fst).Nodup) ∧
    (∀ (reg : VesselRegistry) (v : VesselUpdate),
        getVessel (storeUpdate reg v) v.mmsi = some v) ∧
    (∀ (reg : VesselRegistry) (v : VesselUpdate) (k : String), k ≠ v.mmsi →
        getVessel (storeUpdate reg v) k = getVessel reg k) :=
  ⟨nodup_keys_processUpdates, getVessel_storeUpdate_self,
   fun reg v k hk => getVessel_storeUpdate_frame reg v k hk⟩

/-- C10 witness: with vessels keyed "111" and "222" in the registry, an
update for MMSI "111" overwrites exactly that entry and the entry for
"222" is untouched; a three-message sequence ending in a repeated MMSI
yields distinct registry keys. -/
theorem C10_registry_last_writer_wins_witness :
    ((processUpdates [⟨"111", 1, 2, 3, 90⟩, ⟨"222", 4, 5, 6, 80⟩,
        ⟨"111", 7, 8, 9, 50⟩]).map Prod.fst).Nodup ∧
    getVessel (storeUpdate [("111", ⟨"111", 1, 2, 3, 90⟩),
        ("222", ⟨"222", 4, 5, 6, 80⟩)] ⟨"111", 7, 8, 9, 50⟩) "111" =
      some ⟨"111", 7, 8, 9, 50⟩ ∧
    getVessel (storeUpdate [("111", ⟨"111", 1, 2, 3, 90⟩),
        ("222", ⟨"222", 4, 5, 6, 80⟩)] ⟨"111", 7, 8, 9, 50⟩) "222" =
      getVessel [("111", ⟨"111", 1, 2, 3, 90⟩),
        ("222", ⟨"222", 4, 5, 6, 80⟩)] "222" :=
  ⟨C10_registry_last_writer_wins.1 _,
   C10_registry_last_writer_wins.2.1 _ _,
   C10_registry_last_writer_wins.2.2 _ _ "222" (by decide)⟩

/-- Identity of a 0.25 degree weather grid cell. -/
abbrev GeoCell := ℤ × ℤ

/-- Modelled from the spec: the grid cell of a position is obtained by
flooring latitude and longitude to the 0.25 degree cell size (spec
section 4.1). -/
def toGeoCell (lat lon : ℚ) : GeoCell := (⌊lat / 0.25⌋, ⌊lon / 0.25⌋)

/-- Identity of one concurrent caller of the cache. -/
abbrev CallerId := ℕ

/-- A weather observation as cached by the weather service; time is in
seconds. -/
structure WeatherObservation where
  wind_speed_mps : ℚ
  wave_height_m : ℚ
  fetchedAt : ℕ

/-- A cache entry owns exactly one observation plus its insertion time. -/
structure CacheEntry where
  obs : WeatherObservation
  insertedAt : ℕ

/-- Cache time-to-live: 10 minutes, in seconds. -/
def TTL : ℕ := 600

/-- Modelled from the spec: the state of the weather grid cache of
`app/services/weather_service.py` (absent from `src/`; spec sections 4.1
and 5): the per-cell entry map, the per-cell list of callers waiting on
the in-flight fetch (nonempty exactly when a fetch is in flight), the
number of external fetches issued so far, and the log of
(caller, time, observation) hand-offs. -/
structure CacheState where
  entries : GeoCell → Option CacheEntry
  waiting : GeoCell → List CallerId
  fetchCount : ℕ
  delivered : List (CallerId × ℕ × WeatherObservation)

/-- The cache before any lookup. -/
def initCache : CacheState :=
  { entries := fun _ => none
    waiting := fun _ => []
    fetchCount := 0
    delivered := [] }

/-- An interleaving event against the cache: a caller's lookup reaching
the cache at a given time, or the completion of the in-flight fetch for
a cell at a given time. -/
inductive CacheEvent where
  | get (c : CallerId) (cell : GeoCell) (t : ℕ)
  | complete (cell : GeoCell) (o : WeatherObservation) (t : ℕ)

/-- Modelled from the spec: a caller that finds no live entry joins the
cell's in-flight fetch when one exists, and otherwise issues the single
new external fetch and becomes its first waiter (spec section 4.1). -/
def startOrJoin (s : CacheState) (c : CallerId) (cell : GeoCell) : CacheState :=
  match s.waiting cell with
  | [] =>
      { s with
        waiting := fun x => if x = cell then [c] else s.waiting x
        fetchCount := s.fetchCount + 1 }
  | w :: ws =>
      { s with
        waiting := fun x => if x = cell then (w :: ws) ++ [c] else s.waiting x }

/-- Modelled from the spec: one step of the cache (spec sections 4.1 and
5).  A lookup that finds a live (non-expired) entry is handed that
observation immediately; otherwise it starts or joins the cell's single
in-flight fetch.  A completing fetch stamps its observation, replaces
the cell's entry, hands the observation to every coalesced waiter and
clears the in-flight marker. -/
def applyEvent (s : CacheState) : CacheEvent → CacheState
  | CacheEvent.get c cell t =>
      match s.entries cell with
      | some en =>
          if t ≤ en.insertedAt + TTL then
            { s with delivered := s.delivered ++ [(c, t, en.obs)] }
          else startOrJoin s c cell
      | none => startOrJoin s c cell
  | CacheEvent.complete cell o t =>
      match s.waiting cell with
      | [] => s
      | w :: ws =>
          let obs := { o with fetchedAt := t }
          { s with
            entries := fun x =>
              if x = cell then some { obs := obs, insertedAt := t } else s.entries x
            waiting := fun x => if x = cell then [] else s.waiting x
            delivered := s.delivered ++ (w :: ws).map fun u => (u, t, obs) }

/-- The burst of lookup events for one cell generated by a list of
(caller, arrival time) pairs. -/
def getBurst (cell : GeoCell) (arrivals : List (CallerId × ℕ)) : List CacheEvent :=
  arrivals.map fun p => CacheEvent.get p.1 cell p.2

/-- Running a whole event interleaving from the fresh cache. -/
def runEvents (evs : List CacheEvent) : CacheState :=
  evs.foldl applyEvent initCache

theorem burst_joins_inflight (cell : GeoCell) (arrivals : List (CallerId × ℕ)) :
    ∀ s : CacheState, s.entries cell = none → s.waiting cell ≠ [] →
      ((getBurst cell arrivals).foldl applyEvent s).entries cell = none ∧
      ((getBurst cell arrivals).foldl applyEvent s).waiting cell =
        s.waiting cell ++ arrivals.map Prod.fst ∧
      ((getBurst cell arrivals).foldl applyEvent s).fetchCount = s.fetchCount ∧
      ((getBurst cell arrivals).foldl applyEvent s).delivered = s.delivered := by
  induction arrivals with
  | nil => intro s h1 h2; simp [getBurst, h1]
  | cons a rest ih =>
    intro s h1 h2
    obtain ⟨w, ws, hws⟩ := List.exists_cons_of_ne_nil h2
    have hstep : applyEvent s (CacheEvent.get a.1 cell a.2) =
        { s with
          waiting := fun x => if x = cell then (w :: ws) ++ [a.1] else s.waiting x } := by
      simp [applyEvent, h1, startOrJoin, hws]
    have hrest := ih ({ s with
        waiting := fun x => if x = cell then (w :: ws) ++ [a.1] else s.waiting x })
      (by simpa using h1) (by simp)
    have hcons : getBurst cell (a :: rest) =
        CacheEvent.get a.1 cell a.2 :: getBurst cell rest := rfl
    rw [hcons, List.foldl_cons, hstep]
    refine ⟨hrest.1, ?_, hrest.2.2.1, hrest.2.2.2⟩
    rw [hrest.2.1]
    simp [hws]

/-- C1: from a state with no entry and no in-flight fetch for a cell, a
burst of N concurrent lookups for that cell issues exactly one external
fetch (and nobody is handed anything before it completes), and the
completion of that single in-flight fetch hands its observation to all N
callers without any further fetch. -/
theorem C1_single_flight_coalescing :
    ∀ (s : CacheState) (cell : GeoCell) (arrivals : List (CallerId × ℕ))
      (o : WeatherObservation) (tDone : ℕ),
      s.entries cell = none → s.waiting cell = [] → arrivals ≠ [] →
      ((getBurst cell arrivals).foldl applyEvent s).fetchCount = s.fetchCount + 1 ∧
      ((getBurst cell arrivals).foldl applyEvent s).delivered = s.delivered ∧
      (applyEvent ((getBurst cell arrivals).foldl applyEvent s)
          (CacheEvent.complete cell o tDone)).fetchCount = s.fetchCount + 1 ∧
      (applyEvent ((getBurst cell arrivals).foldl applyEvent s)
          (CacheEvent.complete cell o tDone)).delivered =
        s.delivered ++ arrivals.map
          (fun p => (p.1, tDone, { o with fetchedAt := tDone })) := by
  intro s cell arrivals o tDone h1 h2 h3
  obtain ⟨a, rest, ha⟩ := List.exists_cons_of_ne_nil h3
  subst ha
  have hstep : applyEvent s (CacheEvent.get a.1 cell a.2) =
      { s with
        waiting := fun x => if x = cell then [a.1] else s.waiting x
        fetchCount := s.fetchCount + 1 } := by
    simp [applyEvent, h1, startOrJoin, h2]
  have hrest := burst_joins_inflight cell rest ({ s with
      waiting := fun x => if x = cell then [a.1] else s.waiting x
      fetchCount := s.fetchCount + 1 })
    (by simpa using h1) (by simp)
  have hcons : getBurst cell (a :: rest) =
      CacheEvent.get a.1 cell a.2 :: getBurst cell rest := rfl
  rw [hcons, List.foldl_cons, hstep]
  have hwait : ((getBurst cell rest).foldl applyEvent ({ s with
      waiting := fun x => if x = cell then [a.1] else s.waiting x
      fetchCount := s.fetchCount + 1 })).waiting cell = a.1 :: rest.map Prod.fst := by
    rw [hrest.2.1]; simp
  refine ⟨hrest.2.2.1, hrest.2.2.2, ?_, ?_⟩
  · simp [applyEvent, hwait, hrest.2.2.1]
  · simp [applyEvent, hwait, hrest.2.2.2]

/-- C1 witness: three concurrent lookups for cell (0, 0) on the fresh
cache issue exactly one fetch, and its completion hands the stamped
observation to all three callers. -/
theorem C1_single_flight_coalescing_witness :
    ((getBurst (0, 0) [(1, 2), (2, 2), (3, 3)]).foldl applyEvent initCache).fetchCount =
      initCache.fetchCount + 1 ∧
    (applyEvent ((getBurst (0, 0) [(1, 2), (2, 2), (3, 3)]).foldl applyEvent initCache)
        (CacheEvent.complete (0, 0) ⟨8.5, 1.2, 0⟩ 4)).delivered =
      initCache.delivered ++ [(1, 2), (2, 2), (3, 3)].map
        (fun p => (p.1, 4, (⟨8.5, 1.2, 4⟩ : WeatherObservation))) :=
  ⟨(C1_single_flight_coalescing initCache (0, 0) [(1, 2), (2, 2), (3, 3)]
      ⟨8.5, 1.2, 0⟩ 4 rfl rfl (by simp)).1,
   (C1_single_flight_coalescing initCache (0, 0) [(1, 2), (2, 2), (3, 3)]
      ⟨8.5, 1.2, 0⟩ 4 rfl rfl (by simp)).2.2.2⟩

/-- Auxiliary invariant: every cached entry's observation is stamped
with the entry's insertion time. -/
def EntriesTimed (s : CacheState) : Prop :=
  ∀ cell en, s.entries cell = some en → en.obs.fetchedAt = en.insertedAt

/-- Every hand-off in the log happened within TTL of the observation's
fetch time. -/
def DeliveredFresh (s : CacheState) : Prop :=
  ∀ c t o, (c, t, o) ∈ s.delivered → t ≤ o.fetchedAt + TTL

theorem startOrJoin_entries_delivered (s : CacheState) (c : CallerId) (cell : GeoCell) :
    (startOrJoin s c cell).entries = s.entries ∧
    (startOrJoin s c cell).delivered = s.delivered := by
  cases hw : s.waiting cell <;> simp [startOrJoin, hw]

theorem inv_step (s : CacheState) (e : CacheEvent)
    (h1 : EntriesTimed s) (h2 : DeliveredFresh s) :
    EntriesTimed (applyEvent s e) ∧ DeliveredFresh (applyEvent s e) := by
  cases e with
  | get c cell t =>
    cases hent : s.entries cell with
    | none =>
      have haux := startOrJoin_entries_delivered s c cell
      simp only [applyEvent, hent]
      constructor
      · intro cl en hen; rw [haux.1] at hen; exact h1 cl en hen
      · intro c2 t2 o2 hm; rw [haux.2] at hm; exact h2 c2 t2 o2 hm
    | some en =>
      by_cases hl : t ≤ en.insertedAt + TTL
      · simp only [applyEvent, hent, if_pos hl]
        constructor
        · intro cl en2 hen; exact h1 cl en2 hen
        · intro c2 t2 o2 hm
          simp only [List.mem_append, List.mem_singleton] at hm
          rcases hm with hm | hm
          · exact h2 c2 t2 o2 hm
          · simp only [Prod.ext_iff] at hm
            obtain ⟨h4, h5, h6⟩ := hm
            subst h5
            rw [h6, h1 cell en hent]
            exact hl
      · have haux := startOrJoin_entries_delivered s c cell
        simp only [applyEvent, hent, if_neg hl]
        constructor
        · intro cl en2 hen; rw [haux.1] at hen; exact h1 cl en2 hen
        · intro c2 t2 o2 hm; rw [haux.2] at hm; exact h2 c2 t2 o2 hm
  | complete cell o t =>
    cases hw : s.waiting cell with
    | nil => simp only [applyEvent, hw]; exact ⟨h1, h2⟩
    | cons w ws =>
      simp only [applyEvent, hw]
      constructor
      · intro cl en hen
        simp only at hen
        by_cases hcl : cl = cell
        · rw [if_pos hcl] at hen
          simp only [Option.some.injEq] at hen
          rw [← hen]
        · rw [if_neg hcl] at hen
          exact h1 cl en hen
      · intro c2 t2 o2 hm
        simp only [List.mem_append] at hm
        rcases hm with hm | hm
        · exact h2 c2 t2 o2 hm
        · simp only [List.mem_map, List.mem_cons] at hm
          obtain ⟨u, _, he⟩ := hm
          simp only [Prod.ext_iff] at he
          obtain ⟨h4, h5, h6⟩ := he
          subst h5
          rw [← h6]
          exact Nat.le_add_right t TTL

theorem inv_run (evs : List CacheEvent) :
    ∀ s : CacheState, EntriesTimed s → DeliveredFresh s →
      EntriesTimed (evs.foldl applyEvent s) ∧
      DeliveredFresh (evs.foldl applyEvent s) := by
  induction evs with
  | nil => intro s h1 h2; exact ⟨h1, h2⟩
  | cons e rest ih =>
    intro s h1 h2
    have hstep := inv_step s e h1 h2
    simpa using ih (applyEvent s e) hstep.1 hstep.2

/-- C2: along every interleaving of lookups and fetch completions from
the fresh cache, every observation handed to a caller is at most TTL
old at the moment of hand-off; and a lookup finding an entry older than
TTL while no fetch is in flight issues exactly one refresh fetch and
hands out nothing stale. -/
theorem C2_ttl_freshness_and_refresh :
    (∀ (evs : List CacheEvent) (c : CallerId) (t : ℕ) (o : WeatherObservation),
        (c, t, o) ∈ (runEvents evs).delivered → t ≤ o.fetchedAt + TTL) ∧
    (∀ (s : CacheState) (c : CallerId) (cell : GeoCell) (t : ℕ) (en : CacheEntry),
        s.entries cell = some en → en.insertedAt + TTL < t → s.waiting cell = [] →
        (applyEvent s (CacheEvent.get c cell t)).fetchCount = s.fetchCount + 1 ∧
        (applyEvent s (CacheEvent.get c cell t)).delivered = s.delivered) := by
  constructor
  · intro evs c t o hm
    have hinit1 : EntriesTimed initCache := by
      intro cell en hen
      simp [initCache] at hen
    have hinit2 : DeliveredFresh initCache := by
      intro c2 t2 o2 hm2
      simp [initCache] at hm2
    exact (inv_run evs initCache hinit1 hinit2).2 c t o hm
  · intro s c cell t en hent hexp hwait
    have hnl : ¬ t ≤ en.insertedAt + TTL := not_le.mpr hexp
    simp [applyEvent, hent, if_neg hnl, startOrJoin, hwait]

/-- One concrete interleaving: caller 1 misses and triggers the fetch,
the fetch completes at time 5, caller 2 hits the cached entry at time
100. -/
def demoRun : List CacheEvent :=
  [CacheEvent.get 1 (0, 0) 0,
   CacheEvent.complete (0, 0) ⟨8.5, 1.2, 0⟩ 5,
   CacheEvent.get 2 (0, 0) 100]

/-- C2 witness: in the concrete interleaving the observation handed to
caller 2 at time 100 was fetched at time 5, within TTL; and a lookup at
time 700, past the entry's expiry, issues exactly one refresh fetch. -/
theorem C2_ttl_freshness_and_refresh_witness :
    (100 : ℕ) ≤ (⟨8.5, 1.2, 5⟩ : WeatherObservation).fetchedAt + TTL ∧
    (applyEvent (runEvents demoRun) (CacheEvent.get 3 (0, 0) 700)).fetchCount =
      (runEvents demoRun).fetchCount + 1 := by
  have hmem : ((2 : CallerId), (100 : ℕ), (⟨8.5, 1.2, 5⟩ : WeatherObservation)) ∈
      (runEvents demoRun).delivered := by
    simp [runEvents, demoRun, applyEvent, initCache, startOrJoin, TTL]
  have hent : (runEvents demoRun).entries (0, 0) =
      some ⟨⟨8.5, 1.2, 5⟩, 5⟩ := by
    simp [runEvents, demoRun, applyEvent, initCache, startOrJoin, TTL]
  have hwait : (runEvents demoRun).waiting (0, 0) = [] := by
    simp [runEvents, demoRun, applyEvent, initCache, startOrJoin, TTL]
  exact ⟨C2_ttl_freshness_and_refresh.1 demoRun 2 100 ⟨8.5, 1.2, 5⟩ hmem,
    (C2_ttl_freshness_and_refresh.2 (runEvents demoRun) 3 (0, 0) 700
      ⟨⟨8.5, 1.2, 5⟩, 5⟩ hent (by norm_num [TTL]) hwait).1⟩

end ESGMaritime
